import Mathlib

/-!
Verification development for the interactive story engine `ai_storybook.py`.

The Python program is shallowly embedded below.  Python dicts are modelled
as insertion-ordered association lists (`List (String × α)`) with the exact
update/lookup discipline of CPython dicts.  The Mersenne-Twister random
source (`random.Random(world_seed)`) only selects prose fragments from
concrete nonempty lists; it is abstracted as a choice function
`List String → String` threaded through the generator, and every theorem is
proved for an arbitrary such function, so no result depends on which
element the PRNG picks.  `Option` marks the places where the Python code
could raise (`KeyError` on a dict subscript); `none` means the original
program would have thrown.
-/

/-- Lookup in the association-list model of a Python dict (`d[k]` / `d.get(k)`). -/
def dictGet {α : Type} (d : List (String × α)) (k : String) : Option α :=
  match d with
  | [] => none
  | p :: rest => if p.fst = k then some p.snd else dictGet rest k

/-- Python `d.get(k, v)`: lookup with a default value. -/
def dictGetD {α : Type} (d : List (String × α)) (k : String) (v : α) : α :=
  (dictGet d k).getD v

/-- Python `k in d`: key membership. -/
def dictMem {α : Type} (d : List (String × α)) (k : String) : Bool :=
  (dictGet d k).isSome

/-- Python `d[k] = v`: update the existing entry in place, or append a new one. -/
def dictSet {α : Type} (d : List (String × α)) (k : String) (v : α) : List (String × α) :=
  match d with
  | [] => [(k, v)]
  | p :: rest => if p.fst = k then (k, v) :: rest else p :: dictSet rest k v

/-- Python `str.lower()` (ASCII fidelity): lowercase every character. -/
def pyLower (s : String) : String := String.mk (s.data.map Char.toLower)

/-- Python `str.upper()` (ASCII fidelity): uppercase every character. -/
def pyUpper (s : String) : String := String.mk (s.data.map Char.toUpper)

/-- The ASCII whitespace characters stripped by Python `str.strip()` /
split on by `str.split()`: space, tab, newline, carriage return, vertical
tab and form feed. -/
def isPySpace (c : Char) : Bool :=
  c == ' ' || c == '\t' || c == '\n' || c == '\r' || c == Char.ofNat 11 || c == Char.ofNat 12

/-- Python `str.strip()`: remove whitespace from both ends. -/
def pyStrip (s : String) : String :=
  String.mk (((s.data.dropWhile isPySpace).reverse.dropWhile isPySpace).reverse)

/-- Character-list prefix test backing `pyStartsWith`. -/
def charsStartWith : List Char → List Char → Bool
  | _, [] => true
  | [], _ :: _ => false
  | c :: cs, p :: ps => c == p && charsStartWith cs ps

/-- Python `s.startswith(pre)`. -/
def pyStartsWith (s pre : String) : Bool := charsStartWith s.data pre.data

/-- Python `s[n:]`. -/
def pyDrop (s : String) (n : Nat) : String := String.mk (s.data.drop n)

/-- Python `s[:n]`. -/
def pyTake (s : String) (n : Nat) : String := String.mk (s.data.take n)

/-- Accumulator recursion backing `pySplitWs`. -/
def splitWsGo : List Char → List Char → List String
  | cur, [] => if cur.isEmpty then [] else [String.mk cur.reverse]
  | cur, c :: cs =>
    if isPySpace c then
      if cur.isEmpty then splitWsGo [] cs else String.mk cur.reverse :: splitWsGo [] cs
    else splitWsGo (c :: cur) cs

/-- Python `str.split()` with no argument: split on whitespace runs,
discarding empty pieces. -/
def pySplitWs (s : String) : List String := splitWsGo [] s.data

/-- Python `str.capitalize()` (ASCII): first character uppercased, the rest lowercased. -/
def pyCapitalize (s : String) : String :=
  match s.data with
  | [] => ""
  | c :: cs => String.mk (c.toUpper :: cs.map Char.toLower)

/-- `StoryNode` dataclass: node id, body text, choices (letter ↦ (label, target)),
ending marker and tag list. -/
structure StoryNode where
  node_id : String
  text : String
  choices : List (String × (String × String))
  is_ending : Bool
  tags : List String
deriving DecidableEq

/-- `StoryState` dataclass: the mutable world state owned by the engine. -/
structure StoryState where
  genre : String
  tone : String
  protagonist : String
  companion : String
  world_seed : Nat
  inventory : List String
  flags : List (String × Nat)
deriving DecidableEq

/-- The genre-motif table of `StoryGenerator._world_description`. -/
def motifs : List (String × List String) :=
  [("fantasy",
     ["ancient forests hum with latent magic",
      "ruins dream beneath ivy and star-shards",
      "dragons are rumors woven into lullabies"]),
   ("sci-fi",
     ["neon skylines flicker over rusted megastructures",
      "fractured moons glow above orbital shipyards",
      "synthetic dawns reboot forgotten cities"]),
   ("mystery",
     ["fog erases footprints faster than they form",
      "clocks tick out-of-sync with the heart",
      "every window watches with a different story"])]

/-- `StoryGenerator._closest_key`: exact match of the trimmed lowercased key,
else the first mapping key starting with its first three characters, else the
first key of the mapping (`none` only when the mapping is empty, where Python
would raise `StopIteration`). -/
def closestKey (key : String) (mapping : List (String × List String)) : Option String :=
  let k := pyLower (pyStrip key)
  if dictMem mapping k then some k
  else
    match mapping.find? (fun p => pyStartsWith p.fst (pyTake k 3)) with
    | some p => some p.fst
    | none => mapping.head?.map (fun p => p.fst)

/-- `StoryGenerator._world_description`, `Option`-valued: `none` marks the
`KeyError` Python would raise if the motif lookup failed. -/
def worldDescriptionQ (st : StoryState) (r : List String → String) : Option String :=
  match closestKey st.genre motifs with
  | none => none
  | some key =>
    match dictGet motifs key with
    | none => none
    | some lst => some (pyCapitalize (r lst) ++ ".")

/-- Total form of `_world_description`, used by the node builders; it agrees
with `worldDescriptionQ` on every input (proved in the totality theorem). -/
def worldDescription (st : StoryState) (r : List String → String) : String :=
  (worldDescriptionQ st r).getD ""

/-- `StoryGenerator._inciting_incident`. -/
def incitingIncident (r : List String → String) : String :=
  r ["A comet carves a silent arc and leaves a whispering tail.",
     "A letter arrives signed by a future version of you.",
     "The river flows backward for exactly one minute.",
     "A bell rings where there is no bell."]

/-- `StoryGenerator._mysterious_clue`. -/
def mysteriousClue (r : List String → String) : String :=
  r ["a rune repeating the shape of your heartbeat",
     "ash arranged like a compass pointing underground",
     "a soft tone audible only when eyes are closed",
     "footprints that avoid every puddle"]

/-- `StoryGenerator._ally_name`. -/
def allyName (r : List String → String) : String :=
  r ["Iria", "Thorne", "Vel", "Mara", "Kade", "Nyx", "Quen"] ++ " " ++
    r ["Ashfall", "Kestrel", "Voss", "Hallow", "Strand", "Noct"]

/-- `StoryGenerator._terrain`. -/
def terrain (r : List String → String) : String :=
  r ["wind-scoured valley",
     "tangle of luminous reeds",
     "labyrinth of basalt spires",
     "glimmering salt flats"]

/-- `StoryGenerator._antagonistic_force`. -/
def antagonisticForce (r : List String → String) : String :=
  r ["the Archivist who edits memories",
     "the Clock that refuses to strike midnight",
     "the Leviathan beneath the city",
     "the Choir of Masks that speaks as one"]

/-- `StoryGenerator._ending_fragment`. -/
def endingFragment (style : String) : String :=
  if style = "hopeful" then
    "Kindness accumulates like dawn. Promises once broken are rewoven, and the " ++
      "road ahead gleams with possibility."
  else if style = "tragic" then
    "A necessary loss settles like snow. What is saved endures because of what " ++
      "was given up."
  else
    "Nothing was as it seemed: the question mattered more than the answer, and " ++
      "the answer changes when observed."

/-- `StoryGenerator.generate_opening`. -/
def generateOpening (st : StoryState) (r : List String → String) : StoryNode :=
  { node_id := "opening"
    text := "In a " ++ st.tone ++ " " ++ st.genre ++ " world, " ++ st.protagonist ++
      " travels with " ++ st.companion ++ ". " ++ worldDescription st r ++ " " ++
      incitingIncident r ++ "\n\nWhat will you do?"
    choices :=
      [("A", ("Investigate the omen", "omen")),
       ("B", ("Seek an ally in the nearest settlement", "ally")),
       ("C", ("Ignore it and press onward", "onward"))]
    is_ending := false
    tags := [] }

/-- `StoryGenerator.generate_omen`. -/
def generateOmen (st : StoryState) (r : List String → String) : StoryNode :=
  { node_id := "omen"
    text := "The air shivers as runes flicker across the path. " ++ st.companion ++
      " whispers about old tales. You notice " ++ mysteriousClue r ++ ".\n\nWill you:"
    choices :=
      [("A", ("Study the runes closely", "study_runes")),
       ("B", ("Mark the site and retreat for now", "retreat")),
       ("C", ("Touch the brightest rune", "touch_rune"))]
    is_ending := false
    tags := [] }

/-- `StoryGenerator.generate_study_runes`. -/
def generateStudyRunes (st : StoryState) : StoryNode :=
  { node_id := "study_runes"
    text := "As " ++ st.protagonist ++ " studies the runes, " ++ st.companion ++
      " gasps — the symbols start rearranging themselves into a path only visible " ++
      "under moonlight. The markings pulse gently, revealing a hidden direction." ++
      "\n\nWhat will you do next?"
    choices :=
      [("A", ("Follow the glowing path", "hidden_path")),
       ("B", ("Copy the runes for later study", "onward")),
       ("C", ("Erase one and see what happens", "climax"))]
    is_ending := false
    tags := [] }

/-- `StoryGenerator.generate_ally`. -/
def generateAlly (st : StoryState) (r : List String → String) : StoryNode :=
  { node_id := "ally"
    text := "At the settlement, a wary figure named " ++ allyName r ++
      " offers guidance for a price. They speak of a hidden way only the " ++
      "persistent may find.\n\nChoose:"
    choices :=
      [("A", ("Barter a keepsake for their map", "get_map")),
       ("B", ("Earn trust by helping with a local problem", "help_local")),
       ("C", ("Refuse and chart your own route", "onward"))]
    is_ending := false
    tags := [] }

/-- `StoryGenerator.generate_onward`. -/
def generateOnward (st : StoryState) (r : List String → String) : StoryNode :=
  { node_id := "onward"
    text := "You press onward into " ++ terrain r ++ ". The path splits before a " ++
      "stone arch. Beneath the moss, faint grooves suggest something is missing." ++
      "\n\nDo you:"
    choices :=
      [("A", ("Search the area for a fitting object", "search_area")),
       ("B", ("Force your way through the arch", "force_arch")),
       ("C", ("Set camp and wait for signs", "make_camp"))]
    is_ending := false
    tags := [] }

/-- `StoryGenerator.generate_hidden_path`. -/
def generateHiddenPath : StoryNode :=
  { node_id := "hidden_path"
    text := "You feel a shift in the world: a narrow passage reveals itself where " ++
      "shadows overlap. Few ever notice this place. A hush falls as if the story " ++
      "itself is holding its breath.\n\nProceed?"
    choices :=
      [("A", ("Enter the hidden passage", "hidden_depths")),
       ("B", ("Mark it and return later", "return_later")),
       ("C", ("Call out into the dark", "call_dark"))]
    is_ending := false
    tags := ["hidden"] }

/-- `StoryGenerator.generate_climax`. -/
def generateClimax (st : StoryState) (r : List String → String) : StoryNode :=
  { node_id := "climax"
    text := "At last, you confront " ++ antagonisticForce r ++
      ". Threads of fate tighten around " ++ st.protagonist ++
      ".\nThe outcome turns on a single choice.\n\nChoose your stand:"
    choices :=
      [("A", ("Appeal with empathy", "ending_hopeful")),
       ("B", ("Outwit with a bold gambit", "ending_twist")),
       ("C", ("Defy at any cost", "ending_tragic"))]
    is_ending := false
    tags := [] }

/-- `StoryGenerator.generate_ending`: no random draw is involved, so the node
depends only on the state and the style. -/
def generateEnding (st : StoryState) (style : String) : StoryNode :=
  { node_id := "ending_" ++ style
    text := "After all trials, " ++ st.protagonist ++ " and " ++ st.companion ++
      " face the consequences. " ++ endingFragment style ++
      "\n\nThis chapter closes in a " ++ style ++ " way."
    choices := []
    is_ending := true
    tags := ["ending", style] }

/-- `StoryEngine._build_nodes`: the full, eagerly materialized node mapping. -/
def buildNodes (st : StoryState) (r : List String → String) : List (String × StoryNode) :=
  [("opening", generateOpening st r),
   ("omen", generateOmen st r),
   ("study_runes", generateStudyRunes st),
   ("ally", generateAlly st r),
   ("onward", generateOnward st r),
   ("hidden_path", generateHiddenPath),
   ("climax", generateClimax st r),
   ("ending_hopeful", generateEnding st "hopeful"),
   ("ending_tragic", generateEnding st "tragic"),
   ("ending_twist", generateEnding st "twist")]

/-- `StoryEngine.SECRET_INPUT`. -/
def secretInput : String := "whisper"

/-- `StoryEngine` session: world state, abstracted random source, node
mapping and the current-node pointer. -/
structure StoryEngine where
  state : StoryState
  rand : List String → String
  nodes : List (String × StoryNode)
  current_id : String

/-- `StoryEngine.__init__`: build the nodes and start at `opening`. -/
def mkEngine (st : StoryState) (r : List String → String) : StoryEngine :=
  { state := st, rand := r, nodes := buildNodes st r, current_id := "opening" }

/-- `StoryEngine.restart_with`: wholesale state replacement, rebuilt node
mapping (with the random source reseeded, modelled as a new choice
function), pointer reset to `opening`. -/
def restartWith (e : StoryEngine) (newState : StoryState)
    (newRand : List String → String) : StoryEngine :=
  { state := newState, rand := newRand, nodes := buildNodes newState newRand,
    current_id := "opening" }

/-- Style normalization of `StoryEngine.rewrite_ending` (source lines
324-326): trim and lowercase, anything outside hopeful/tragic/twist
becomes twist. -/
def styleKeyOf (style : String) : String :=
  if pyLower (pyStrip style) = "hopeful" ∨ pyLower (pyStrip style) = "tragic" ∨
      pyLower (pyStrip style) = "twist" then
    pyLower (pyStrip style)
  else "twist"

/-- `StoryEngine.rewrite_ending` continued: regenerate the normalized ending
node in place and point at it. -/
def rewriteEnding (e : StoryEngine) (style : String) : StoryEngine :=
  let styleKey := styleKeyOf style
  { e with
    nodes := dictSet e.nodes ("ending_" ++ styleKey) (generateEnding e.state styleKey)
    current_id := "ending_" ++ styleKey }

/-- Outcome of `StoryEngine._handle_command`: `quitSignal` models the
`SystemExit` raised by `:quit`; every other head returns normally. -/
inductive CmdOutcome where
  | normal
  | quitSignal
deriving DecidableEq

/-- `StoryEngine._handle_command`.  `help`, `state`, `inv` and `seeds` only
print; they leave the engine unchanged here.  `restart` consumes the
externally collected seed state (and fresh random source) passed down from
`step`; unknown heads are silently ignored. -/
def handleCommand (e : StoryEngine) (rst : StoryState)
    (rrand : List String → String) (cmd : String) : StoryEngine × CmdOutcome :=
  match pySplitWs cmd with
  | [] => (e, CmdOutcome.normal)
  | head :: tail =>
    if head = "help" then (e, CmdOutcome.normal)
    else if head = "state" then (e, CmdOutcome.normal)
    else if head = "inv" then (e, CmdOutcome.normal)
    else if head = "rewrite" then (rewriteEnding e (tail.headD "twist"), CmdOutcome.normal)
    else if head = "restart" then (restartWith e rst rrand, CmdOutcome.normal)
    else if head = "seeds" then (e, CmdOutcome.normal)
    else if head = "quit" then (e, CmdOutcome.quitSignal)
    else (e, CmdOutcome.normal)

/-- `StoryEngine._apply_side_effects`: the four-entry side-effect table,
checked as four independent conditionals exactly as in the source. -/
def applySideEffects (st : StoryState) (nodeId choice : String) : StoryState :=
  let st :=
    if nodeId = "ally" ∧ choice = "A" then
      { st with inventory := st.inventory ++ ["cryptic map"],
                flags := dictSet st.flags "map" 1 }
    else st
  let st :=
    if nodeId = "onward" ∧ choice = "A" then
      { st with inventory := st.inventory ++ ["stone key"],
                flags := dictSet st.flags "key" 1 }
    else st
  let st :=
    if nodeId = "omen" ∧ choice = "C" then
      { st with flags := dictSet st.flags "reckless" 1 }
    else st
  let st :=
    if nodeId = "onward" ∧ choice = "B" then
      { st with flags := dictSet st.flags "wounded" 1 }
    else st
  st

/-- Result of one `step` call: a node to render, `None` ("not understood"),
or the `SystemExit` termination signal from `:quit`. -/
inductive StepResult where
  | node (n : StoryNode)
  | notUnderstood
  | quit
deriving DecidableEq

/-- `StoryEngine._maybe_funnel_to_climax`: increment flag `steps`; if the
current node is missing fall back to `climax`; otherwise funnel to `climax`
exactly when the node is not an ending, not tagged `hidden`, `steps` is at
least 4, and the flags mapping yields a truthy (nonempty) key other than
`steps`.  `none` marks the `KeyError` of `self.nodes["climax"]` when the
climax node itself were absent. -/
def maybeFunnelToClimax (e : StoryEngine) : Option (StoryEngine × StepResult) :=
  let flags2 := dictSet e.state.flags "steps" (dictGetD e.state.flags "steps" 0 + 1)
  let e1 : StoryEngine := { e with state := { e.state with flags := flags2 } }
  match dictGet e1.nodes e1.current_id with
  | none =>
    match dictGet e1.nodes "climax" with
    | none => none
    | some cn => some ({ e1 with current_id := "climax" }, StepResult.node cn)
  | some node =>
    if !node.is_ending && !(node.tags.contains "hidden") &&
        decide (4 ≤ dictGetD flags2 "steps" 0) &&
        flags2.any (fun p => !(p.fst == "steps") && !(p.fst == "")) then
      match dictGet e1.nodes "climax" with
      | none => none
      | some cn => some ({ e1 with current_id := "climax" }, StepResult.node cn)
    else some (e1, StepResult.node node)

/-- Tail of `StoryEngine.step`: look the uppercased input up in the current
node's choices; on a hit apply side effects, move the pointer and run the
climax funnel, otherwise return "not understood" with no state change. -/
def genericChoice (e : StoryEngine) (node : StoryNode) (input : String) :
    Option (StoryEngine × StepResult) :=
  match dictGet node.choices (pyUpper input) with
  | none => some (e, StepResult.notUnderstood)
  | some ct =>
    let e1 : StoryEngine :=
      { e with state := applySideEffects e.state node.node_id (pyUpper input),
               current_id := ct.snd }
    maybeFunnelToClimax e1

/-- `StoryEngine.step`: trim the input, dispatch commands (leading `:`),
then the secret keyword, then the omen double-study special case, then the
generic choice lookup.  `rst`/`rrand` stand for the externally collected
seed state and reseeded random source that `:restart` would gather
interactively. -/
def step (e : StoryEngine) (rst : StoryState) (rrand : List String → String)
    (raw : String) : Option (StoryEngine × StepResult) :=
  let input := pyStrip raw
  match dictGet e.nodes e.current_id with
  | none => none
  | some node =>
    if pyStartsWith input ":" then
      match handleCommand e rst rrand (pyDrop input 1) with
      | (e2, CmdOutcome.quitSignal) => some (e2, StepResult.quit)
      | (e2, CmdOutcome.normal) =>
        match dictGet e2.nodes e2.current_id with
        | none => none
        | some n2 => some (e2, StepResult.node n2)
    else if pyLower input = secretInput then
      let e2 : StoryEngine :=
        { e with
          state := { e.state with
            flags := dictSet e.state.flags "secret" (dictGetD e.state.flags "secret" 0 + 1) }
          current_id := "hidden_path" }
      match dictGet e2.nodes "hidden_path" with
      | none => none
      | some n2 => some (e2, StepResult.node n2)
    else if node.node_id = "omen" ∧ pyUpper input = "A" then
      let newCount := dictGetD e.state.flags "studies" 0 + 1
      let e1 : StoryEngine :=
        { e with state := { e.state with flags := dictSet e.state.flags "studies" newCount } }
      if 2 ≤ newCount then
        let e2 : StoryEngine := { e1 with current_id := "hidden_path" }
        match dictGet e2.nodes "hidden_path" with
        | none => none
        | some n2 => some (e2, StepResult.node n2)
      else
        genericChoice e1 node input
    else
      genericChoice e node input

/-! ### Lemmas about the dict model -/

theorem dictGet_set_self {α : Type} (d : List (String × α)) (k : String) (v : α) :
    dictGet (dictSet d k v) k = some v := by
  induction d with
  | nil => simp [dictSet, dictGet]
  | cons p rest ih =>
    by_cases h : p.fst = k
    · simp [dictSet, dictGet, h]
    · simp [dictSet, dictGet, h, ih]

theorem dictGet_set_ne {α : Type} (d : List (String × α)) (k : String) (v : α)
    (k' : String) (h : k' ≠ k) : dictGet (dictSet d k v) k' = dictGet d k' := by
  have hk : ¬ k = k' := fun e => h e.symm
  induction d with
  | nil => simp [dictSet, dictGet, hk]
  | cons p rest ih =>
    by_cases hp : p.fst = k
    · have hpk : ¬ p.fst = k' := by rw [hp]; exact hk
      simp [dictSet, if_pos hp, dictGet, hk, hpk]
    · have hset : dictSet (p :: rest) k v = p :: dictSet rest k v := by
        simp [dictSet, hp]
      rw [hset]
      by_cases hp' : p.fst = k'
      · simp [dictGet, hp']
      · simp [dictGet, hp', ih]

theorem dictMem_set_self {α : Type} (d : List (String × α)) (k : String) (v : α) :
    dictMem (dictSet d k v) k = true := by
  simp [dictMem, dictGet_set_self]

theorem dictMem_set_of_mem {α : Type} (d : List (String × α)) (k : String) (v : α)
    (k' : String) (h : dictMem d k' = true) : dictMem (dictSet d k v) k' = true := by
  by_cases hk : k' = k
  · subst hk
    exact dictMem_set_self d k' v
  · simpa [dictMem, dictGet_set_ne d k v k' hk] using h

theorem dictMem_of_mem {α : Type} (d : List (String × α)) (p : String × α)
    (h : p ∈ d) : dictMem d p.fst = true := by
  induction d with
  | nil => cases h
  | cons q rest ih =>
    rcases List.mem_cons.mp h with h | h
    · subst h
      simp [dictMem, dictGet]
    · by_cases hq : q.fst = p.fst
      · simp [dictMem, dictGet, hq]
      · simpa [dictMem, dictGet, hq] using ih h

theorem dictSet_forall_fst {α : Type} {P : String → Prop} (d : List (String × α))
    (k : String) (v : α) (hd : ∀ p ∈ d, P p.fst) (hk : P k) :
    ∀ p ∈ dictSet d k v, P p.fst := by
  induction d with
  | nil =>
    intro p hp
    simp only [dictSet, List.mem_singleton] at hp
    simpa [hp] using hk
  | cons q rest ih =>
    intro p hp
    by_cases hq : q.fst = k
    · simp only [dictSet, hq, if_pos rfl] at hp
      rcases List.mem_cons.mp hp with h | h
      · simpa [h] using hk
      · exact hd p (List.mem_cons_of_mem q h)
    · simp only [dictSet, if_neg hq] at hp
      rcases List.mem_cons.mp hp with h | h
      · exact h ▸ hd q (List.mem_cons_self q rest)
      · exact ih (fun p hp => hd p (List.mem_cons_of_mem q hp)) p h

theorem exists_fst_dictSet {α : Type} {Q : String → Prop} (d : List (String × α))
    (k : String) (v : α) :
    (∃ p ∈ dictSet d k v, Q p.fst) ↔ (Q k ∨ ∃ p ∈ d, Q p.fst) := by
  induction d with
  | nil => simp [dictSet]
  | cons q rest ih =>
    by_cases hq : q.fst = k
    · simp only [dictSet, hq, if_pos rfl]
      constructor
      · rintro ⟨p, hp, hQ⟩
        rcases List.mem_cons.mp hp with h | h
        · exact Or.inl (by simpa [h] using hQ)
        · exact Or.inr ⟨p, List.mem_cons_of_mem q h, hQ⟩
      · rintro (h | ⟨p, hp, hQ⟩)
        · exact ⟨(k, v), List.mem_cons_self _ _, h⟩
        · rcases List.mem_cons.mp hp with h' | h'
          · exact ⟨(k, v), List.mem_cons_self _ _, by rw [← hq]; exact h' ▸ hQ⟩
          · exact ⟨p, List.mem_cons_of_mem _ h', hQ⟩
    · simp only [dictSet, if_neg hq]
      constructor
      · rintro ⟨p, hp, hQ⟩
        rcases List.mem_cons.mp hp with h | h
        · exact Or.inr ⟨q, List.mem_cons_self q rest, by simpa [h] using hQ⟩
        · rcases ih.mp ⟨p, h, hQ⟩ with h' | ⟨p', hp', hQ'⟩
          · exact Or.inl h'
          · exact Or.inr ⟨p', List.mem_cons_of_mem q hp', hQ'⟩
      · rintro (h | ⟨p, hp, hQ⟩)
        · rcases ih.mpr (Or.inl h) with ⟨p, hp, hQ⟩
          exact ⟨p, List.mem_cons_of_mem q hp, hQ⟩
        · rcases List.mem_cons.mp hp with h' | h'
          · exact ⟨q, List.mem_cons_self q (dictSet rest k v), by simpa [h'] using hQ⟩
          · rcases ih.mpr (Or.inr ⟨p, h', hQ⟩) with ⟨p', hp', hQ'⟩
            exact ⟨p', List.mem_cons_of_mem q hp', hQ'⟩

theorem dictGet_isSome_of_mem {α : Type} (d : List (String × α)) (k : String)
    (h : dictMem d k = true) : ∃ v, dictGet d k = some v := by
  cases hg : dictGet d k with
  | none => simp [dictMem, hg] at h
  | some v => exact ⟨v, rfl⟩

theorem flags_any_iff (l : List (String × Nat)) (h : ∀ p ∈ l, p.fst ≠ "") :
    (l.any (fun p => !(p.fst == "steps") && !(p.fst == "")) = true) ↔
      ∃ p ∈ l, p.fst ≠ "steps" := by
  rw [List.any_eq_true]
  constructor
  · rintro ⟨p, hp, hb⟩
    simp only [Bool.and_eq_true, Bool.not_eq_true', beq_eq_false_iff_ne] at hb
    exact ⟨p, hp, hb.1⟩
  · rintro ⟨p, hp, hne⟩
    refine ⟨p, hp, ?_⟩
    simp only [Bool.and_eq_true, Bool.not_eq_true', beq_eq_false_iff_ne]
    exact ⟨hne, h p hp⟩

/-! ### Witness fixtures: a small concrete engine for instantiating theorems -/

/-- A minimal concrete world state used to instantiate theorems. -/
def wState : StoryState :=
  { genre := "g", tone := "t", protagonist := "P", companion := "C",
    world_seed := 0, inventory := [], flags := [] }

/-- A concrete random-choice function (always picks the first entry). -/
def wRand : List String → String := fun l => l.headD ""

/-- Concrete start node for the witness engine. -/
def wStart : StoryNode :=
  { node_id := "start", text := "s",
    choices := [("B", ("go", "mid")), ("M", ("gone", "missing"))],
    is_ending := false, tags := [] }

/-- Concrete intermediate node for the witness engine. -/
def wMid : StoryNode :=
  { node_id := "mid", text := "m", choices := [], is_ending := false, tags := [] }

/-- Concrete hidden node for the witness engine. -/
def wHidden : StoryNode :=
  { node_id := "hidden_path", text := "h", choices := [], is_ending := false,
    tags := ["hidden"] }

/-- Concrete climax node for the witness engine. -/
def wClimax : StoryNode :=
  { node_id := "climax", text := "c", choices := [], is_ending := false, tags := [] }

/-- Concrete opening node for the witness engine. -/
def wOpening : StoryNode :=
  { node_id := "opening", text := "w", choices := [], is_ending := false, tags := [] }

/-- A small concrete engine used to instantiate theorems with hypotheses. -/
def wEngine : StoryEngine :=
  { state := wState, rand := wRand,
    nodes := [("start", wStart), ("mid", wMid), ("hidden_path", wHidden),
              ("climax", wClimax), ("opening", wOpening)],
    current_id := "start" }

/-! ### Claim theorems -/

theorem closestKey_motifs_mem (g : String) :
    ∃ k, closestKey g motifs = some k ∧ dictMem motifs k = true := by
  unfold closestKey
  by_cases h : dictMem motifs (pyLower (pyStrip g)) = true
  · exact ⟨pyLower (pyStrip g), by simp [h], h⟩
  · have h' : dictMem motifs (pyLower (pyStrip g)) = false := by
      simpa using h
    cases hf : motifs.find? (fun p => pyStartsWith p.fst (pyTake (pyLower (pyStrip g)) 3)) with
    | some p =>
      refine ⟨p.fst, ?_, dictMem_of_mem _ _ (List.mem_of_find?_eq_some hf)⟩
      simp [h', hf]
    | none =>
      refine ⟨"fantasy", ?_, by decide⟩
      simp [h', hf]
      exact ⟨_, rfl⟩

/-- C10: node materialization is total over arbitrary genre strings — the
genre-motif lookup of `_closest_key` always resolves to a key present in the
motif mapping (exact normalized match, else first key sharing the first
three characters, else the first key), so `_world_description` (and with it
`_build_nodes`) never hits a failing dict subscript. -/
theorem genre_lookup_total (g : String) (st : StoryState) (r : List String → String) :
    (∃ k, closestKey g motifs = some k ∧ dictMem motifs k = true) ∧
    worldDescriptionQ st r = some (worldDescription st r) := by
  refine ⟨closestKey_motifs_mem g, ?_⟩
  obtain ⟨k, hk, hmem⟩ := closestKey_motifs_mem st.genre
  obtain ⟨lst, hlst⟩ := dictGet_isSome_of_mem motifs k hmem
  unfold worldDescription worldDescriptionQ
  simp [hk, hlst]

/-- C3: a trimmed non-command input equal (case-insensitively) to the secret
keyword increments flag `secret` by 1, forces the pointer to `hidden_path`
and returns that node; the rest of the world state, the node mapping, and in
particular flag `steps` are untouched. -/
theorem secret_keyword_spec (e : StoryEngine) (rst : StoryState)
    (rr : List String → String) (raw : String) (node hn : StoryNode)
    (hnode : dictGet e.nodes e.current_id = some node)
    (hcmd : pyStartsWith (pyStrip raw) ":" = false)
    (hsec : pyLower (pyStrip raw) = secretInput)
    (hhid : dictGet e.nodes "hidden_path" = some hn) :
    step e rst rr raw =
      some ({ e with
              state := { e.state with
                flags := dictSet e.state.flags "secret" (dictGetD e.state.flags "secret" 0 + 1) },
              current_id := "hidden_path" }, StepResult.node hn) ∧
    dictGet (dictSet e.state.flags "secret" (dictGetD e.state.flags "secret" 0 + 1)) "steps" =
      dictGet e.state.flags "steps" := by
  constructor
  · unfold step
    rw [hnode]
    simp [hcmd, hsec, hhid]
  · exact dictGet_set_ne e.state.flags "secret" _ "steps" (by decide)

/-- C3 witness: typing `whisper` at the concrete witness engine jumps to the
hidden path with flag `secret` set to 1. -/
theorem secret_keyword_witness :
    step wEngine wState wRand "whisper" =
      some ({ wEngine with
              state := { wState with flags := [("secret", 1)] },
              current_id := "hidden_path" }, StepResult.node wHidden) :=
  (secret_keyword_spec wEngine wState wRand "whisper" wStart wHidden rfl
    (by decide) (by decide) rfl).1

theorem handleCommand_quit (e : StoryEngine) (rst : StoryState)
    (rr : List String → String) : handleCommand e rst rr "quit" = (e, CmdOutcome.quitSignal) := by
  unfold handleCommand
  rw [show pySplitWs "quit" = ["quit"] from by decide]
  simp

/-- C9: `step(":quit")` raises the distinct termination signal with the
engine left completely unchanged, and that signal is distinguishable from
both a returned node and the null "not understood" result. -/
theorem quit_terminates (e : StoryEngine) (rst : StoryState)
    (rr : List String → String) (node : StoryNode)
    (hnode : dictGet e.nodes e.current_id = some node) :
    step e rst rr ":quit" = some (e, StepResult.quit) ∧
    (∀ n, StepResult.node n ≠ StepResult.quit) ∧
    StepResult.notUnderstood ≠ StepResult.quit := by
  refine ⟨?_, fun n => by simp, by simp⟩
  unfold step
  simp only [hnode, show pyStrip ":quit" = ":quit" from by decide,
    show pyStartsWith ":quit" ":" = true from by decide,
    show pyDrop ":quit" 1 = "quit" from by decide, handleCommand_quit]
  simp

/-- C9 witness: `:quit` at the concrete witness engine yields the quit
signal and no state change. -/
theorem quit_terminates_witness :
    step wEngine wState wRand ":quit" = some (wEngine, StepResult.quit) :=
  (quit_terminates wEngine wState wRand wStart rfl).1

/-- C6: any trimmed input that is not a command, not the secret keyword, and
whose uppercase form is not a choice key of the current node yields the null
"not understood" result with the engine — pointer, inventory and flags —
entirely unchanged.  The last hypothesis records that the omen node always
declares choice `A` (true of every materialized node mapping), which rules
out the one code path that could touch a flag before failing the lookup. -/
theorem unrecognized_input_spec (e : StoryEngine) (rst : StoryState)
    (rr : List String → String) (raw : String) (node : StoryNode)
    (hnode : dictGet e.nodes e.current_id = some node)
    (hcmd : pyStartsWith (pyStrip raw) ":" = false)
    (hsec : pyLower (pyStrip raw) ≠ secretInput)
    (hmiss : dictGet node.choices (pyUpper (pyStrip raw)) = none)
    (homen : node.node_id = "omen" → dictMem node.choices "A" = true) :
    step e rst rr raw = some (e, StepResult.notUnderstood) := by
  unfold step
  rw [hnode]
  by_cases hom : node.node_id = "omen" ∧ pyUpper (pyStrip raw) = "A"
  · exfalso
    obtain ⟨v, hv⟩ := dictGet_isSome_of_mem _ _ (homen hom.1)
    rw [hom.2] at hmiss
    rw [hmiss] at hv
    simp at hv
  · simp [hcmd, hsec, hom, genericChoice, hmiss]

/-- C6 witness: input `Z` at the concrete witness engine (choices `B`/`M`)
returns "not understood" and changes nothing. -/
theorem unrecognized_input_witness :
    step wEngine wState wRand "Z" = some (wEngine, StepResult.notUnderstood) :=
  unrecognized_input_spec wEngine wState wRand "Z" wStart rfl (by decide)
    (by decide) rfl (by decide)

/-- C7: `rewrite_ending` normalizes every style to hopeful/tragic/twist with
unrecognized values becoming twist, replaces exactly the one stored node
under `ending_<style>` with the regenerated ending node, leaves every other
mapping entry, the world state and the random source unchanged, points the
engine at the rewritten key, and in particular behaves on "bogus" exactly as
on "twist". -/
theorem rewrite_ending_spec (e : StoryEngine) (style : String) :
    (styleKeyOf style = "hopeful" ∨ styleKeyOf style = "tragic" ∨
      styleKeyOf style = "twist") ∧
    (¬(pyLower (pyStrip style) = "hopeful" ∨ pyLower (pyStrip style) = "tragic" ∨
        pyLower (pyStrip style) = "twist") → styleKeyOf style = "twist") ∧
    (rewriteEnding e style).state = e.state ∧
    (rewriteEnding e style).rand = e.rand ∧
    (rewriteEnding e style).current_id = "ending_" ++ styleKeyOf style ∧
    dictGet (rewriteEnding e style).nodes ("ending_" ++ styleKeyOf style) =
      some (generateEnding e.state (styleKeyOf style)) ∧
    (∀ k, k ≠ "ending_" ++ styleKeyOf style →
      dictGet (rewriteEnding e style).nodes k = dictGet e.nodes k) ∧
    rewriteEnding e "bogus" = rewriteEnding e "twist" := by
  refine ⟨?_, ?_, rfl, rfl, rfl, ?_, ?_, ?_⟩
  · unfold styleKeyOf
    by_cases h : pyLower (pyStrip style) = "hopeful" ∨ pyLower (pyStrip style) = "tragic" ∨
        pyLower (pyStrip style) = "twist"
    · rcases h with h1 | h1 | h1 <;> simp [h1]
    · simp [h]
  · intro h
    unfold styleKeyOf
    simp [h]
  · unfold rewriteEnding
    exact dictGet_set_self _ _ _
  · intro k hk
    unfold rewriteEnding
    exact dictGet_set_ne _ _ _ k hk
  · rfl

/-- C7 witness: rewriting with the unrecognized style `bogus` on the
concrete witness engine installs a fresh `ending_twist` node and points at
it, identically to rewriting with `twist`. -/
theorem rewrite_ending_witness :
    dictGet (rewriteEnding wEngine "bogus").nodes "ending_twist" =
      some (generateEnding wState "twist") ∧
    (rewriteEnding wEngine "bogus").current_id = "ending_twist" ∧
    rewriteEnding wEngine "bogus" = rewriteEnding wEngine "twist" ∧
    dictGet (rewriteEnding wEngine "bogus").nodes "start" = some wStart := by
  have h := rewrite_ending_spec wEngine "bogus"
  exact ⟨h.2.2.2.2.2.1, h.2.2.2.2.1, h.2.2.2.2.2.2.2,
    (h.2.2.2.2.2.2.1 "start" (by decide)).trans rfl⟩

/-- C4: at `omen` with no flags set, `step("A")` sets flag `studies` to 1
and moves through the generic choice path (incrementing `steps`) to
`study_runes`; at any omen node with `studies` = 1, a second `step("A")`
sets `studies` to 2 and jumps straight to `hidden_path`, bypassing the
funnel check, so `steps` is untouched. -/
theorem omen_double_study (st rst : StoryState) (r rr : List String → String)
    (e : StoryEngine) (node hn : StoryNode)
    (hnode : dictGet e.nodes e.current_id = some node)
    (hid : node.node_id = "omen")
    (hstud : dictGet e.state.flags "studies" = some 1)
    (hhid : dictGet e.nodes "hidden_path" = some hn) :
    (step { mkEngine { st with flags := [] } r with current_id := "omen" } rst rr "A" =
      some ({ mkEngine { st with flags := [] } r with
              state := { st with flags := [("studies", 1), ("steps", 1)] },
              current_id := "study_runes" },
            StepResult.node (generateStudyRunes { st with flags := [] }))) ∧
    (step e rst rr "A" =
      some ({ e with
              state := { e.state with flags := dictSet e.state.flags "studies" 2 },
              current_id := "hidden_path" }, StepResult.node hn)) ∧
    dictGet (dictSet e.state.flags "studies" 2) "steps" =
      dictGet e.state.flags "steps" := by
  refine ⟨?_, ?_, dictGet_set_ne _ _ _ _ (by decide)⟩
  · rfl
  · unfold step
    rw [hnode]
    have hA : pyStrip "A" = "A" := by decide
    have h1 : pyStartsWith "A" ":" = false := by decide
    have h2 : pyLower "A" ≠ secretInput := by decide
    have h3 : pyUpper "A" = "A" := by decide
    have h4 : dictGetD e.state.flags "studies" 0 = 1 := by
      simp [dictGetD, hstud]
    simp [hA, h1, h2, h3, h4, hid, hhid]

/-- Concrete omen-shaped node for the witness engine. -/
def wOmen : StoryNode :=
  { node_id := "omen", text := "o",
    choices := [("A", ("study", "study_runes"))], is_ending := false, tags := [] }

/-- Witness engine parked at an omen node with `studies` already 1. -/
def wEngineOmen : StoryEngine :=
  { state := { wState with flags := [("studies", 1)] }, rand := wRand,
    nodes := [("omen", wOmen), ("hidden_path", wHidden)], current_id := "omen" }

/-- C4 witness: a second `A` at omen with `studies` = 1 jumps straight to
`hidden_path` with `studies` = 2 and `steps` untouched. -/
theorem omen_double_study_witness :
    step wEngineOmen wState wRand "A" =
      some ({ wEngineOmen with
              state := { wState with flags := [("studies", 2)] },
              current_id := "hidden_path" }, StepResult.node wHidden) :=
  (omen_double_study wState wState wRand wRand wEngineOmen wOmen wHidden
    rfl rfl rfl rfl).2.1

/-- C5: the side-effect table holds exactly — ally/A appends "cryptic map"
and sets flag `map` to 1, onward/A appends "stone key" and sets `key` to 1,
omen/C sets `reckless` to 1, onward/B sets `wounded` to 1, every other
(node, choice) pair leaves the state untouched — and on a successful
generic choice `step` applies the effects exactly once, before handing the
moved engine to the climax-funnel check. -/
theorem side_effects_spec (st : StoryState) (nodeId choice : String)
    (e : StoryEngine) (rst : StoryState) (rr : List String → String)
    (raw : String) (node : StoryNode) (ct : String × String)
    (hnode : dictGet e.nodes e.current_id = some node)
    (hcmd : pyStartsWith (pyStrip raw) ":" = false)
    (hsec : pyLower (pyStrip raw) ≠ secretInput)
    (homen : ¬(node.node_id = "omen" ∧ pyUpper (pyStrip raw) = "A"))
    (hchoice : dictGet node.choices (pyUpper (pyStrip raw)) = some ct)
    (hother : ¬(nodeId = "ally" ∧ choice = "A") ∧ ¬(nodeId = "onward" ∧ choice = "A") ∧
      ¬(nodeId = "omen" ∧ choice = "C") ∧ ¬(nodeId = "onward" ∧ choice = "B")) :
    applySideEffects st "ally" "A" =
      { st with inventory := st.inventory ++ ["cryptic map"],
                flags := dictSet st.flags "map" 1 } ∧
    applySideEffects st "onward" "A" =
      { st with inventory := st.inventory ++ ["stone key"],
                flags := dictSet st.flags "key" 1 } ∧
    applySideEffects st "omen" "C" = { st with flags := dictSet st.flags "reckless" 1 } ∧
    applySideEffects st "onward" "B" = { st with flags := dictSet st.flags "wounded" 1 } ∧
    applySideEffects st nodeId choice = st ∧
    step e rst rr raw =
      maybeFunnelToClimax
        { e with state := applySideEffects e.state node.node_id (pyUpper (pyStrip raw)),
                 current_id := ct.snd } := by
  obtain ⟨h1, h2, h3, h4⟩ := hother
  refine ⟨by simp [applySideEffects], by simp [applySideEffects],
    by simp [applySideEffects], by simp [applySideEffects], ?_, ?_⟩
  · unfold applySideEffects
    simp [h1, h2, h3, h4]
  · unfold step
    rw [hnode]
    simp [hcmd, hsec, homen, genericChoice, hchoice]

/-- C5 witness: taking choice `b` at the witness engine start node (not in
the table) applies no side effect, and the table entries evaluate as stated
on the concrete state. -/
theorem side_effects_witness :
    applySideEffects wState "ally" "A" =
      { wState with inventory := ["cryptic map"], flags := [("map", 1)] } ∧
    applySideEffects wState "start" "B" = wState ∧
    step wEngine wState wRand "b" =
      maybeFunnelToClimax { wEngine with state := wState, current_id := "mid" } := by
  have h := side_effects_spec wState "start" "B" wEngine wState wRand "b" wStart
    ("go", "mid") rfl (by decide) (by decide) (by decide) rfl
    (by exact ⟨by decide, by decide, by decide, by decide⟩)
  exact ⟨h.1, h.2.2.2.2.1, h.2.2.2.2.2⟩

/-- Flags mutation performed by step 3 of `StoryEngine.step` before it falls
through to the generic choice lookup: at an omen node with input `A` the
flag `studies` has already been incremented (source lines 277-278). -/
def omenStudyAdjust (st : StoryState) (nodeId upperIn : String) : StoryState :=
  if nodeId = "omen" ∧ upperIn = "A" then
    { st with flags := dictSet st.flags "studies" (dictGetD st.flags "studies" 0 + 1) }
  else st

/-- World state handed to `_maybe_funnel_to_climax` by a generic choice
transition: the omen-study adjustment followed by the side-effect table. -/
def preFunnelState (st : StoryState) (nodeId upperIn : String) : StoryState :=
  applySideEffects (omenStudyAdjust st nodeId upperIn) nodeId upperIn

/-- Flags after the funnel check's unconditional `steps` increment
(source line 292). -/
def steppedFlags (st : StoryState) : List (String × Nat) :=
  dictSet st.flags "steps" (dictGetD st.flags "steps" 0 + 1)

/-- The funnel condition of `_maybe_funnel_to_climax` as the specification
reads it: resulting node not an ending, not tagged hidden, `steps` at least
4, and some flag key other than `steps` present. -/
def FunnelCond (tn : StoryNode) (fl : List (String × Nat)) : Prop :=
  tn.is_ending = false ∧ tn.tags.contains "hidden" = false ∧
    4 ≤ dictGetD fl "steps" 0 ∧ ∃ p ∈ fl, p.fst ≠ "steps"

instance funnelCondDecidable (tn : StoryNode) (fl : List (String × Nat)) :
    Decidable (FunnelCond tn fl) := by
  unfold FunnelCond
  infer_instance

theorem dictSet_keys_ne {α : Type} (d : List (String × α)) (k : String) (v : α)
    (hd : ∀ (a : String) (b : α), (a, b) ∈ d → ¬ a = "") (hk : ¬ k = "") :
    ∀ (a : String) (b : α), (a, b) ∈ dictSet d k v → ¬ a = "" :=
  fun a b hab =>
    @dictSet_forall_fst α (fun s => ¬ s = "") d k v (fun p hp => hd p.1 p.2 hp) hk (a, b) hab

theorem omenStudyAdjust_keys (st : StoryState) (nid u : String)
    (h : ∀ p ∈ st.flags, p.fst ≠ "") :
    ∀ p ∈ (omenStudyAdjust st nid u).flags, p.fst ≠ "" := by
  unfold omenStudyAdjust
  split
  · exact @dictSet_forall_fst Nat (fun s => s ≠ "") st.flags "studies" _ h (by decide)
  · exact h

theorem applySideEffects_keys (st : StoryState) (nid c : String)
    (h : ∀ p ∈ st.flags, p.fst ≠ "") :
    ∀ p ∈ (applySideEffects st nid c).flags, p.fst ≠ "" := by
  have h' : ∀ (a : String) (b : Nat), (a, b) ∈ st.flags → ¬ a = "" :=
    fun a b hab => h (a, b) hab
  by_cases h1 : nid = "ally" ∧ c = "A" <;>
    by_cases h2 : nid = "onward" ∧ c = "A" <;>
      by_cases h3 : nid = "omen" ∧ c = "C" <;>
        by_cases h4 : nid = "onward" ∧ c = "B" <;>
          simp [applySideEffects, h1, h2, h3, h4] <;>
            repeat
              first
                | exact h'
                | exact h
                | refine dictSet_keys_ne _ _ _ ?_ (by decide)

theorem maybeFunnel_spec (e : StoryEngine) (cn : StoryNode)
    (hclimax : dictGet e.nodes "climax" = some cn)
    (hkeys : ∀ p ∈ e.state.flags, p.fst ≠ "") :
    ∃ e' res, maybeFunnelToClimax e = some (e', res) ∧
      e'.nodes = e.nodes ∧
      e'.state.flags = steppedFlags e.state ∧
      e'.state.inventory = e.state.inventory ∧
      (dictGet e.nodes e.current_id = none →
        e'.current_id = "climax" ∧ res = StepResult.node cn) ∧
      (∀ tn, dictGet e.nodes e.current_id = some tn →
        (FunnelCond tn (steppedFlags e.state) →
          e'.current_id = "climax" ∧ res = StepResult.node cn) ∧
        (¬FunnelCond tn (steppedFlags e.state) →
          e'.current_id = e.current_id ∧ res = StepResult.node tn)) := by
  have hkeys2 : ∀ p ∈ steppedFlags e.state, p.fst ≠ "" :=
    @dictSet_forall_fst Nat (fun s => s ≠ "") e.state.flags "steps" _ hkeys (by decide)
  unfold maybeFunnelToClimax
  cases hcur : dictGet e.nodes e.current_id with
  | none =>
    simp only [hcur, hclimax]
    refine ⟨_, _, rfl, rfl, rfl, rfl, fun _ => ⟨rfl, rfl⟩, fun tn htn => ?_⟩
    cases htn
  | some tn =>
    simp only [hcur]
    have hiff :
        ((!tn.is_ending && !(tn.tags.contains "hidden") &&
          decide (4 ≤ dictGetD (dictSet e.state.flags "steps"
            (dictGetD e.state.flags "steps" 0 + 1)) "steps" 0) &&
          (dictSet e.state.flags "steps" (dictGetD e.state.flags "steps" 0 + 1)).any
            (fun p => !(p.fst == "steps") && !(p.fst == ""))) = true)
          ↔ FunnelCond tn (steppedFlags e.state) := by
      unfold FunnelCond steppedFlags
      rw [Bool.and_eq_true, Bool.and_eq_true, Bool.and_eq_true,
        flags_any_iff (dictSet e.state.flags "steps"
          (dictGetD e.state.flags "steps" 0 + 1)) hkeys2]
      simp only [Bool.not_eq_true', decide_eq_true_eq]
      tauto
    by_cases hc : FunnelCond tn (steppedFlags e.state)
    · have hb := hiff.mpr hc
      simp only [hb, if_true, hclimax]
      refine ⟨_, _, rfl, rfl, rfl, rfl, fun hnone => ?_, fun tn' htn' => ?_⟩
      · cases hnone
      · obtain rfl : tn = tn' := Option.some.inj htn'
        exact ⟨fun _ => ⟨rfl, rfl⟩, fun hn => absurd hc hn⟩
    · have hb : (!tn.is_ending && !(tn.tags.contains "hidden") &&
          decide (4 ≤ dictGetD (dictSet e.state.flags "steps"
            (dictGetD e.state.flags "steps" 0 + 1)) "steps" 0) &&
          (dictSet e.state.flags "steps" (dictGetD e.state.flags "steps" 0 + 1)).any
            (fun p => !(p.fst == "steps") && !(p.fst == ""))) = false := by
        cases hbv : (!tn.is_ending && !(tn.tags.contains "hidden") &&
          decide (4 ≤ dictGetD (dictSet e.state.flags "steps"
            (dictGetD e.state.flags "steps" 0 + 1)) "steps" 0) &&
          (dictSet e.state.flags "steps" (dictGetD e.state.flags "steps" 0 + 1)).any
            (fun p => !(p.fst == "steps") && !(p.fst == ""))) with
        | false => rfl
        | true => exact absurd (hiff.mp hbv) hc
      simp only [hb, Bool.false_eq_true, if_false]
      refine ⟨_, _, rfl, rfl, rfl, rfl, fun hnone => ?_, fun tn' htn' => ?_⟩
      · cases hnone
      · obtain rfl : tn = tn' := Option.some.inj htn'
        exact ⟨fun hcc => absurd hcc hc, fun _ => ⟨rfl, rfl⟩⟩

theorem genericChoice_spec (e : StoryEngine) (node cn : StoryNode) (input : String)
    (ct : String × String)
    (hchoice : dictGet node.choices (pyUpper input) = some ct)
    (hclimax : dictGet e.nodes "climax" = some cn)
    (hkeys : ∀ p ∈ e.state.flags, p.fst ≠ "") :
    ∃ e' res, genericChoice e node input = some (e', res) ∧
      e'.nodes = e.nodes ∧
      e'.state.flags = steppedFlags (applySideEffects e.state node.node_id (pyUpper input)) ∧
      e'.state.inventory = (applySideEffects e.state node.node_id (pyUpper input)).inventory ∧
      (dictGet e.nodes ct.snd = none → e'.current_id = "climax" ∧ res = StepResult.node cn) ∧
      (∀ tn, dictGet e.nodes ct.snd = some tn →
        (FunnelCond tn e'.state.flags →
          e'.current_id = "climax" ∧ res = StepResult.node cn) ∧
        (¬FunnelCond tn e'.state.flags →
          e'.current_id = ct.snd ∧ res = StepResult.node tn)) := by
  unfold genericChoice
  rw [hchoice]
  obtain ⟨e', res, heq, hn, hf, hi, hnone, hsome⟩ :=
    maybeFunnel_spec
      { e with state := applySideEffects e.state node.node_id (pyUpper input),
               current_id := ct.snd } cn hclimax
      (applySideEffects_keys _ _ _ hkeys)
  refine ⟨e', res, heq, hn, hf, hi, hnone, fun tn htn => ?_⟩
  rw [hf]
  exact hsome tn htn

/-- C1: after every successful generic choice transition (command, secret
keyword and omen-double-study transitions excluded by the hypotheses),
`step` increments flag `steps` by exactly 1; if the chosen target id is
absent from the node mapping the pointer is forced to `climax`; otherwise
the pointer is forced to `climax` precisely under the funnel condition —
target not an ending, not tagged `hidden`, `steps` at least 4, and some
flag key other than `steps` present — and otherwise stays on the declared
target.  The key-presence test is exact (values are irrelevant); the
hypothesis that flag keys are nonempty holds for every reachable state
since the engine only ever creates the keys secret, studies, map, key,
reckless, wounded and steps. -/
theorem funnel_after_generic_choice (e : StoryEngine) (rst : StoryState)
    (rr : List String → String) (raw : String) (node cn : StoryNode)
    (ct : String × String)
    (hnode : dictGet e.nodes e.current_id = some node)
    (hcmd : pyStartsWith (pyStrip raw) ":" = false)
    (hsec : pyLower (pyStrip raw) ≠ secretInput)
    (hnd : ¬(node.node_id = "omen" ∧ pyUpper (pyStrip raw) = "A" ∧
        2 ≤ dictGetD e.state.flags "studies" 0 + 1))
    (hchoice : dictGet node.choices (pyUpper (pyStrip raw)) = some ct)
    (hclimax : dictGet e.nodes "climax" = some cn)
    (hkeys : ∀ p ∈ e.state.flags, p.fst ≠ "") :
    ∃ e' res,
      step e rst rr raw = some (e', res) ∧
      e'.nodes = e.nodes ∧
      e'.state.flags =
        steppedFlags (preFunnelState e.state node.node_id (pyUpper (pyStrip raw))) ∧
      e'.state.inventory =
        (preFunnelState e.state node.node_id (pyUpper (pyStrip raw))).inventory ∧
      dictGetD e'.state.flags "steps" 0 =
        dictGetD (preFunnelState e.state node.node_id (pyUpper (pyStrip raw))).flags
          "steps" 0 + 1 ∧
      (dictGet e.nodes ct.snd = none →
        e'.current_id = "climax" ∧ res = StepResult.node cn) ∧
      (∀ tn, dictGet e.nodes ct.snd = some tn →
        (FunnelCond tn e'.state.flags →
          e'.current_id = "climax" ∧ res = StepResult.node cn) ∧
        (¬FunnelCond tn e'.state.flags →
          e'.current_id = ct.snd ∧ res = StepResult.node tn)) := by
  unfold step
  by_cases hb : node.node_id = "omen" ∧ pyUpper (pyStrip raw) = "A"
  · have hlt : ¬ 2 ≤ dictGetD e.state.flags "studies" 0 + 1 :=
      fun hh => hnd ⟨hb.1, hb.2, hh⟩
    simp only [hnode,
      if_neg (show ¬ pyStartsWith (pyStrip raw) ":" = true by simp [hcmd]),
      if_neg hsec, if_pos hb, if_neg hlt]
    have hpre : applySideEffects
        { e.state with
          flags := (dictSet e.state.flags "studies" (dictGetD e.state.flags "studies" 0 + 1)) }
        node.node_id (pyUpper (pyStrip raw)) =
        preFunnelState e.state node.node_id (pyUpper (pyStrip raw)) := by
      unfold preFunnelState omenStudyAdjust
      rw [if_pos hb]
    obtain ⟨e', res, heq, hn, hf, hi, hnone, hsome⟩ :=
      genericChoice_spec
        { e with state := { e.state with
            flags := (dictSet e.state.flags "studies" (dictGetD e.state.flags "studies" 0 + 1)) } }
        node cn (pyStrip raw) ct hchoice hclimax
        (@dictSet_forall_fst Nat (fun s => s ≠ "") e.state.flags "studies" _ hkeys
          (by decide))
    rw [hpre] at hf hi
    refine ⟨e', res, heq, hn, hf, hi, ?_, hnone, hsome⟩
    rw [hf]
    simp [steppedFlags, dictGetD, dictGet_set_self]
  · simp only [hnode,
      if_neg (show ¬ pyStartsWith (pyStrip raw) ":" = true by simp [hcmd]),
      if_neg hsec, if_neg hb]
    have hpre : applySideEffects e.state node.node_id (pyUpper (pyStrip raw)) =
        preFunnelState e.state node.node_id (pyUpper (pyStrip raw)) := by
      unfold preFunnelState omenStudyAdjust
      rw [if_neg hb]
    obtain ⟨e', res, heq, hn, hf, hi, hnone, hsome⟩ :=
      genericChoice_spec e node cn (pyStrip raw) ct hchoice hclimax hkeys
    rw [hpre] at hf hi
    refine ⟨e', res, heq, hn, hf, hi, ?_, hnone, hsome⟩
    rw [hf]
    simp [steppedFlags, dictGetD, dictGet_set_self]

/-- Witness engine for the funnel: three generic steps already taken and a
side-effect flag set. -/
def wEngineFunnel : StoryEngine :=
  { wEngine with state := { wState with flags := [("map", 1), ("steps", 3)] } }

/-- C1 witness: the fourth generic step, with flag `map` set, funnels to
`climax` even though the chosen target `mid` exists. -/
theorem funnel_after_generic_choice_witness :
    ∃ e' res, step wEngineFunnel wState wRand "b" = some (e', res) ∧
      e'.current_id = "climax" ∧ res = StepResult.node wClimax := by
  obtain ⟨e', res, heq, hn, hf, hi, hst, hnone, hsome⟩ :=
    funnel_after_generic_choice wEngineFunnel wState wRand "b" wStart wClimax
      ("go", "mid") rfl (by decide) (by decide) (by decide) rfl rfl (by decide)
  have hc : FunnelCond wMid e'.state.flags := by
    rw [hf]
    decide
  have h2 := (hsome wMid rfl).1 hc
  exact ⟨e', res, heq, h2.1, h2.2⟩

/-- Validity invariant of an engine: the current pointer and the three ids
the engine can force (`opening`, `hidden_path`, `climax`) are keys of the
node mapping. -/
def engineInvB (e : StoryEngine) : Bool :=
  dictMem e.nodes e.current_id && dictMem e.nodes "opening" &&
    dictMem e.nodes "hidden_path" && dictMem e.nodes "climax"

theorem mkEngine_inv (st : StoryState) (r : List String → String) :
    engineInvB (mkEngine st r) = true := by
  simp [engineInvB, mkEngine, buildNodes, dictMem, dictGet]

theorem restartWith_inv (e : StoryEngine) (st : StoryState)
    (r : List String → String) : engineInvB (restartWith e st r) = true := by
  simp [engineInvB, restartWith, buildNodes, dictMem, dictGet]

theorem rewriteEnding_inv (e : StoryEngine) (style : String)
    (h : engineInvB e = true) : engineInvB (rewriteEnding e style) = true := by
  simp only [engineInvB, Bool.and_eq_true] at h
  obtain ⟨⟨⟨hm, ho⟩, hh⟩, hc⟩ := h
  simp only [engineInvB, rewriteEnding, Bool.and_eq_true]
  exact ⟨⟨⟨dictMem_set_self _ _ _, dictMem_set_of_mem _ _ _ _ ho⟩,
    dictMem_set_of_mem _ _ _ _ hh⟩, dictMem_set_of_mem _ _ _ _ hc⟩

theorem handleCommand_inv (e : StoryEngine) (rst : StoryState)
    (rr : List String → String) (cmd : String) (h : engineInvB e = true) :
    engineInvB (handleCommand e rst rr cmd).fst = true := by
  unfold handleCommand
  cases pySplitWs cmd with
  | nil => simpa using h
  | cons head tail =>
    dsimp only
    split_ifs <;>
      first
        | simpa using h
        | simpa using rewriteEnding_inv e (tail.headD "twist") h
        | simpa using restartWith_inv e rst rr

theorem handleCommand_quit_fst (e : StoryEngine) (rst : StoryState)
    (rr : List String → String) (cmd : String)
    (h : (handleCommand e rst rr cmd).snd = CmdOutcome.quitSignal) :
    (handleCommand e rst rr cmd).fst = e := by
  unfold handleCommand at h ⊢
  cases hps : pySplitWs cmd with
  | nil => rfl
  | cons head tail =>
    rw [hps] at h
    dsimp only at h ⊢
    split_ifs with h1 h2 h3 h4 h5 h6 h7 <;> simp_all

theorem maybeFunnel_inv (e : StoryEngine)
    (ho : dictMem e.nodes "opening" = true)
    (hh : dictMem e.nodes "hidden_path" = true)
    (hc : dictMem e.nodes "climax" = true) :
    ∃ e' res, maybeFunnelToClimax e = some (e', res) ∧ engineInvB e' = true := by
  obtain ⟨cn, hcn⟩ := dictGet_isSome_of_mem _ _ hc
  unfold maybeFunnelToClimax
  cases hcur : dictGet e.nodes e.current_id with
  | none =>
    simp only [hcur, hcn]
    refine ⟨_, _, rfl, ?_⟩
    simp only [engineInvB, Bool.and_eq_true]
    exact ⟨⟨⟨by simpa [dictMem] using congrArg Option.isSome hcn, ho⟩, hh⟩, hc⟩
  | some tn =>
    simp only [hcur]
    by_cases hbv : (!tn.is_ending && !(tn.tags.contains "hidden") &&
        decide (4 ≤ dictGetD (dictSet e.state.flags "steps"
          (dictGetD e.state.flags "steps" 0 + 1)) "steps" 0) &&
        (dictSet e.state.flags "steps" (dictGetD e.state.flags "steps" 0 + 1)).any
          (fun p => !(p.fst == "steps") && !(p.fst == ""))) = true
    · simp only [hbv, if_true, hcn]
      refine ⟨_, _, rfl, ?_⟩
      simp only [engineInvB, Bool.and_eq_true]
      exact ⟨⟨⟨by simpa [dictMem] using congrArg Option.isSome hcn, ho⟩, hh⟩, hc⟩
    · simp only [if_neg hbv]
      refine ⟨_, _, rfl, ?_⟩
      simp only [engineInvB, Bool.and_eq_true]
      exact ⟨⟨⟨by simpa [dictMem] using congrArg Option.isSome hcur, ho⟩, hh⟩, hc⟩

theorem genericChoice_inv (e : StoryEngine) (node : StoryNode) (input : String)
    (ho : dictMem e.nodes "opening" = true)
    (hh : dictMem e.nodes "hidden_path" = true)
    (hc : dictMem e.nodes "climax" = true)
    (hm : dictMem e.nodes e.current_id = true) :
    ∃ e' res, genericChoice e node input = some (e', res) ∧ engineInvB e' = true := by
  unfold genericChoice
  cases hch : dictGet node.choices (pyUpper input) with
  | none =>
    refine ⟨e, StepResult.notUnderstood, rfl, ?_⟩
    simp only [engineInvB, Bool.and_eq_true]
    exact ⟨⟨⟨hm, ho⟩, hh⟩, hc⟩
  | some ct =>
    exact maybeFunnel_inv _ ho hh hc

theorem step_inv_total (e : StoryEngine) (rst : StoryState)
    (rr : List String → String) (raw : String) (h : engineInvB e = true) :
    ∃ e' res, step e rst rr raw = some (e', res) ∧ engineInvB e' = true := by
  have h' := h
  simp only [engineInvB, Bool.and_eq_true] at h'
  obtain ⟨⟨⟨hm, ho⟩, hh⟩, hc⟩ := h'
  obtain ⟨node, hnode⟩ := dictGet_isSome_of_mem _ _ hm
  obtain ⟨hn, hhn⟩ := dictGet_isSome_of_mem _ _ hh
  unfold step
  simp only [hnode]
  by_cases hcolon : pyStartsWith (pyStrip raw) ":" = true
  · simp only [if_pos hcolon]
    rcases hcmd2 : handleCommand e rst rr (pyDrop (pyStrip raw) 1) with ⟨e2, out⟩
    have hinv2 : engineInvB e2 = true := by
      have := handleCommand_inv e rst rr (pyDrop (pyStrip raw) 1) h
      rw [hcmd2] at this
      exact this
    cases out with
    | quitSignal => exact ⟨e2, StepResult.quit, rfl, hinv2⟩
    | normal =>
      have hm2 : dictMem e2.nodes e2.current_id = true := by
        have := hinv2
        simp only [engineInvB, Bool.and_eq_true] at this
        exact this.1.1.1
      obtain ⟨n2, hn2⟩ := dictGet_isSome_of_mem _ _ hm2
      simp only [hn2]
      exact ⟨e2, StepResult.node n2, rfl, hinv2⟩
  · simp only [if_neg hcolon]
    by_cases hsec : pyLower (pyStrip raw) = secretInput
    · simp only [if_pos hsec, hhn]
      refine ⟨_, _, rfl, ?_⟩
      simp only [engineInvB, Bool.and_eq_true]
      exact ⟨⟨⟨by simpa [dictMem] using congrArg Option.isSome hhn, ho⟩, hh⟩, hc⟩
    · simp only [if_neg hsec]
      by_cases hom : node.node_id = "omen" ∧ pyUpper (pyStrip raw) = "A"
      · simp only [if_pos hom]
        by_cases hcount : 2 ≤ dictGetD e.state.flags "studies" 0 + 1
        · simp only [if_pos hcount, hhn]
          refine ⟨_, _, rfl, ?_⟩
          simp only [engineInvB, Bool.and_eq_true]
          exact ⟨⟨⟨by simpa [dictMem] using congrArg Option.isSome hhn, ho⟩, hh⟩, hc⟩
        · simp only [if_neg hcount]
          exact genericChoice_inv _ node (pyStrip raw) ho hh hc hm
      · simp only [if_neg hom]
        exact genericChoice_inv e node (pyStrip raw) ho hh hc hm

/-- C8: current_id is always a valid key of the node mapping — it is
`opening` at construction and after restart, holds at construction, and is
preserved by every branch of `step` (commands, secret keyword, omen special
case, generic choice with the missing-node fallback), by `rewrite_ending`
and by `restart_with`; consequently looking up the current node never
fails and `step` itself never hits a failing dict subscript. -/
theorem current_id_always_valid (e : StoryEngine) (st rst : StoryState)
    (r rr : List String → String) (raw style : String)
    (h : engineInvB e = true) :
    (mkEngine st r).current_id = "opening" ∧
    (restartWith e rst rr).current_id = "opening" ∧
    engineInvB (mkEngine st r) = true ∧
    (∃ v, dictGet e.nodes e.current_id = some v) ∧
    (∃ e' res, step e rst rr raw = some (e', res) ∧ engineInvB e' = true) ∧
    (∀ e' res, step e rst rr raw = some (e', res) → engineInvB e' = true) ∧
    engineInvB (rewriteEnding e style) = true ∧
    engineInvB (restartWith e rst rr) = true := by
  refine ⟨rfl, rfl, mkEngine_inv st r, ?_, step_inv_total e rst rr raw h, ?_,
    rewriteEnding_inv e style h, restartWith_inv e rst rr⟩
  · have hm : dictMem e.nodes e.current_id = true := by
      simp only [engineInvB, Bool.and_eq_true] at h
      exact h.1.1.1
    exact dictGet_isSome_of_mem _ _ hm
  · intro e' res hstep
    obtain ⟨e1, r1, heq, hinv⟩ := step_inv_total e rst rr raw h
    rw [heq] at hstep
    injection hstep with hpair
    injection hpair with he hr
    rw [← he]
    exact hinv

/-- C8 witness: the concrete witness engine satisfies the invariant, its
current node resolves, a step preserves the invariant, and rewriting keeps
it valid. -/
theorem current_id_always_valid_witness :
    (∃ v, dictGet wEngine.nodes wEngine.current_id = some v) ∧
    (∃ e' res, step wEngine wState wRand "B" = some (e', res) ∧
      engineInvB e' = true) ∧
    engineInvB (rewriteEnding wEngine "tragic") = true := by
  have h := current_id_always_valid wEngine wState wState wRand wRand "B" "tragic"
    (by decide)
  exact ⟨h.2.2.2.1, h.2.2.2.2.1, h.2.2.2.2.2.2.1⟩

/-- C2 counterexample: in the materialized node mapping the `onward` node
declares choice `A` with target `search_area`, which is not a key of the
mapping, refuting the claimed every-target-present invariant. -/
theorem choice_targets_counterexample :
    dictGet (buildNodes wState wRand) "onward" = some (generateOnward wState wRand) ∧
    dictGet (generateOnward wState wRand).choices "A" =
      some ("Search the area for a fitting object", "search_area") ∧
    dictMem (buildNodes wState wRand) "search_area" = false :=
  ⟨rfl, rfl, rfl⟩

/-- C2 amended: ending nodes do have empty choices mappings and every
choice target of `opening`, `study_runes` and `climax` is a key of the
mapping, but each of `omen`, `ally`, `onward` and `hidden_path` declares at
least one target absent from the mapping (retreat, touch_rune, get_map,
help_local, search_area, force_arch, make_camp, hidden_depths,
return_later, call_dark), which the engine only survives through the
missing-node climax fallback. -/
theorem choice_targets_amended (st : StoryState) (r : List String → String) :
    ((buildNodes st r).all fun p => !p.snd.is_ending || p.snd.choices.isEmpty) = true ∧
    (∀ n, dictGet (buildNodes st r) "opening" = some n →
      ((n.choices.map fun c => c.snd.snd).all fun t => dictMem (buildNodes st r) t) = true) ∧
    (∀ n, dictGet (buildNodes st r) "study_runes" = some n →
      ((n.choices.map fun c => c.snd.snd).all fun t => dictMem (buildNodes st r) t) = true) ∧
    (∀ n, dictGet (buildNodes st r) "climax" = some n →
      ((n.choices.map fun c => c.snd.snd).all fun t => dictMem (buildNodes st r) t) = true) ∧
    (∀ n, dictGet (buildNodes st r) "omen" = some n →
      ((n.choices.map fun c => c.snd.snd).all fun t => dictMem (buildNodes st r) t) = false) ∧
    (∀ n, dictGet (buildNodes st r) "ally" = some n →
      ((n.choices.map fun c => c.snd.snd).all fun t => dictMem (buildNodes st r) t) = false) ∧
    (∀ n, dictGet (buildNodes st r) "onward" = some n →
      ((n.choices.map fun c => c.snd.snd).all fun t => dictMem (buildNodes st r) t) = false) ∧
    (∀ n, dictGet (buildNodes st r) "hidden_path" = some n →
      ((n.choices.map fun c => c.snd.snd).all fun t => dictMem (buildNodes st r) t) = false) := by
  refine ⟨rfl, ?_, ?_, ?_, ?_, ?_, ?_, ?_⟩ <;>
    · intro n hn
      rw [show (some _ : Option StoryNode) = some n from hn.symm ▸ rfl] at hn
      obtain rfl := Option.some.inj hn
      rfl

/-- C2 amended witness: concrete evaluation — opening targets all present,
onward targets not all present, endings have no choices. -/
theorem choice_targets_amended_witness :
    ((buildNodes wState wRand).all fun p => !p.snd.is_ending || p.snd.choices.isEmpty) = true ∧
    (((generateOpening wState wRand).choices.map fun c => c.snd.snd).all
      (fun t => dictMem (buildNodes wState wRand) t)) = true ∧
    (((generateOnward wState wRand).choices.map fun c => c.snd.snd).all
      (fun t => dictMem (buildNodes wState wRand) t)) = false := by
  have h := choice_targets_amended wState wRand
  exact ⟨h.1, h.2.1 _ rfl, h.2.2.2.2.2.2.1 _ rfl⟩
